import Mathlib

/-!
Verification of the SECDownload repository (src/download.py) against its
natural-language specification.  The Python module is shallowly embedded:
pure text processing becomes Lean functions on `String` / `List Char`,
the network is an explicit environment (`String → List (Option String)`,
one response per retry attempt), and pandas dataframes become lists of
rows or the explicit column dictionary used by `_form_qc`.  All
recursions are structural (fuel-indexed where the Python loop is not
structural) so that every definition evaluates inside the kernel.
-/

/-! ## Python string primitives -/

/-- Characters stripped by Python `str.strip()` (ASCII whitespace). -/
def isPySpace (c : Char) : Bool :=
  c = ' ' || c = '\t' || c = '\n' || c = '\r' || c = Char.ofNat 11 || c = Char.ofNat 12

/-- Python `str.strip()` on a character list. -/
def pyStripL (cs : List Char) : List Char :=
  ((cs.dropWhile isPySpace).reverse.dropWhile isPySpace).reverse

/-- Python `str.strip()`. -/
def pyStrip (s : String) : String := String.mk (pyStripL s.data)

/-- Python substring test (the `pat in s` operator) on character lists. -/
def listContains (pat : List Char) : List Char → Bool
  | [] => pat.isEmpty
  | c :: t => pat.isPrefixOf (c :: t) || listContains pat t

/-- Python substring test `pat in s`. -/
def strContains (s pat : String) : Bool := listContains pat.data s.data

/-- Python `str.count` (non-overlapping, left to right); the fuel is the
length of the scanned list, which bounds the number of steps. -/
def listCountF (pat : List Char) : Nat → List Char → Nat
  | 0, _ => 0
  | f + 1, s =>
    match s with
    | [] => 0
    | c :: t =>
      if pat.isPrefixOf (c :: t) && !pat.isEmpty then
        listCountF pat f (t.drop (pat.length - 1)) + 1
      else
        listCountF pat f t

/-- Python `s.count(pat)`. -/
def strCount (s pat : String) : Nat := listCountF pat.data s.data.length s.data

/-- Split a character list at every newline (helper for `splitlines`). -/
def splitOnNl (cs : List Char) : List (List Char) :=
  cs.foldr
    (fun c acc =>
      match acc with
      | [] => [[]]
      | g :: gs => if c = '\n' then [] :: g :: gs else (c :: g) :: gs)
    [[]]

/-- Python `str.splitlines()` (modelling the newline terminator `\n`,
the only one occurring in the repository's data): no entry is produced
for a trailing newline and the empty string yields no lines. -/
def pySplitlines (s : String) : List String :=
  match s.data with
  | [] => []
  | cs =>
    let p := (splitOnNl cs).map String.mk
    if p.getLast? = some "" then p.dropLast else p

/-- Python `str.split(sep)` with a non-empty separator, fuel-indexed;
`acc` holds the current (reversed) token. -/
def splitOnPatF (pat : List Char) : Nat → List Char → List Char → List (List Char)
  | 0, acc, rest => [acc.reverse ++ rest]
  | f + 1, acc, s =>
    match s with
    | [] => [acc.reverse]
    | c :: t =>
      if pat.isPrefixOf (c :: t) && !pat.isEmpty then
        acc.reverse :: splitOnPatF pat f [] ((c :: t).drop pat.length)
      else
        splitOnPatF pat f (c :: acc) t

/-- Python `s.split(sep)` for non-empty `sep`. -/
def pySplit (s sep : String) : List String :=
  (splitOnPatF sep.data s.data.length [] s.data).map String.mk

/-- Helper for the tag regex: split the list at the first `>` into the
part before it and the part after it. -/
def splitAtGt : List Char → Option (List Char × List Char)
  | [] => none
  | c :: t =>
    if c = '>' then some ([], t)
    else
      match splitAtGt t with
      | some (b, a) => some (c :: b, a)
      | none => none

/-- Model of `re.sub(r'<[^>]+>', '', line)`: delete every substring that
starts with `<`, continues with at least one non-`>` character and ends
at the first following `>`; fuel-indexed (fuel = list length). -/
def removeTagsF : Nat → List Char → List Char
  | 0, cs => cs
  | f + 1, cs =>
    match cs with
    | [] => []
    | c :: rest =>
      if c = '<' then
        match splitAtGt rest with
        | some (b, a) => if b.isEmpty then c :: removeTagsF f rest else removeTagsF f a
        | none => c :: removeTagsF f rest
      else c :: removeTagsF f rest

/-- The value extraction `_re.sub('<[^>]+>', '', line).strip()` used
throughout `_form_qc`. -/
def stripTags (line : String) : String :=
  pyStrip (String.mk (removeTagsF line.data.length line.data))

/-! ## The filing qualifier and extractor `_form_qc` -/

/-- The `datadict` of `_form_qc`: one list of accumulated values per
output column (field names follow the Python dictionary keys). -/
structure Datadict where
  url : List String
  date : List String
  issuerCik : List String
  issuerName : List String
  issuerTicker : List String
  ownerCik : List String
  ownerName : List String
  director : List String
  officer : List String
  tenPctOwner : List String
  officerTitle : List String
  transactionDate : List String
  transactionCode : List String
  numberOfShares : List String
  pricePerShare : List String
  sharesOwnedFollowingTrans : List String
  ownershipNature : List String
deriving DecidableEq, Repr

/-- The dictionary with every column empty. -/
def emptyDatadict : Datadict :=
  ⟨[], [], [], [], [], [], [], [], [], [], [], [], [], [], [], [], []⟩

/-- The `searchlist` of required tags in `_form_qc`. -/
def searchlist : List String :=
  ["<periodOfReport>", "<issuerCik>", "<issuerName>",
   "<issuerTradingSymbol>", "<rptOwnerCik>", "<rptOwnerName>",
   "<transactionDate>", "<transactionShares>",
   "<transactionPricePerShare>",
   "<sharesOwnedFollowingTransaction>",
   "<directOrIndirectOwnership>", "<officerTitle>",
   "<isTenPercentOwner>"]

/-- The `refstrings1` list (director/officer true-value spellings). -/
def refstrings1 : List String :=
  ["<isDirector>1</isDirector>", "<isOfficer>1</isOfficer>",
   "<isDirector>True</isDirector>",
   "<isOfficer>True</isOfficer>",
   "<isDirector>true</isDirector>",
   "<isOfficer>true</isOfficer>"]

/-- The `refstrings2` list (sale/purchase transaction codes). -/
def refstrings2 : List String :=
  ["<transactionCode>S</transactionCode>",
   "<transactionCode>P</transactionCode>"]

/-- The qualification gate of `_form_qc` (the big `if` condition). -/
def qualGate (t : String) : Bool :=
  refstrings1.any (fun s => strContains t s) &&
  refstrings2.any (fun p => strContains t p) &&
  (strCount t "<reportingOwner>" == 1) &&
  (strCount t "<nonDerivativeTransaction>" == 1) &&
  searchlist.all (fun s => strContains t s)

/-- The labels a pending next-line value can be stored under.  In the
Python code this is the string variable `label`; it is only ever read
when `nextline` is true, in which case it is one of these five keys
(the sentinel values `None` / `'ERROR'` are represented by the scan
state holding no pending label at all). -/
inductive NLabel where
  | transactionDate
  | numberOfShares
  | pricePerShare
  | sharesOwnedFollowingTrans
  | ownershipNature
deriving DecidableEq, Repr

/-- Append a value to the column a pending label refers to. -/
def appendTo (dd : Datadict) (l : NLabel) (v : String) : Datadict :=
  match l with
  | .transactionDate => { dd with transactionDate := dd.transactionDate ++ [v] }
  | .numberOfShares => { dd with numberOfShares := dd.numberOfShares ++ [v] }
  | .pricePerShare => { dd with pricePerShare := dd.pricePerShare ++ [v] }
  | .sharesOwnedFollowingTrans =>
      { dd with sharesOwnedFollowingTrans := dd.sharesOwnedFollowingTrans ++ [v] }
  | .ownershipNature => { dd with ownershipNature := dd.ownershipNature ++ [v] }

/-- The tag dispatch of the `for line in formtext` loop of `_form_qc`,
run on a line when no next-line value is pending.  The branches appear
in source order; each guarded branch fires only when the tag occurs in
the line and the column count is still behind the URL count. -/
def qcStepTag (dd : Datadict) (line : String) : Datadict × Option NLabel :=
    if strContains line "<periodOfReport>" && dd.url.length != dd.date.length then
      ({ dd with date := dd.date ++ [stripTags line] }, none)
    else if strContains line "<issuerCik>" && dd.url.length != dd.issuerCik.length then
      ({ dd with issuerCik := dd.issuerCik ++ [stripTags line] }, none)
    else if strContains line "<issuerName>" && dd.url.length != dd.issuerName.length then
      ({ dd with issuerName := dd.issuerName ++ [stripTags line] }, none)
    else if strContains line "<issuerTradingSymbol>" && dd.url.length != dd.issuerTicker.length then
      ({ dd with issuerTicker := dd.issuerTicker ++ [stripTags line] }, none)
    else if strContains line "<rptOwnerCik>" && dd.url.length != dd.ownerCik.length then
      ({ dd with ownerCik := dd.ownerCik ++ [stripTags line] }, none)
    else if strContains line "<rptOwnerName>" && dd.url.length != dd.ownerName.length then
      ({ dd with ownerName := dd.ownerName ++ [stripTags line] }, none)
    else if strContains line "<isDirector>" && dd.url.length != dd.director.length then
      ({ dd with director := dd.director ++ [stripTags line] }, none)
    else if strContains line "<isOfficer>" && dd.url.length != dd.officer.length then
      ({ dd with officer := dd.officer ++ [stripTags line] }, none)
    else if strContains line "<isTenPercentOwner>" && dd.url.length != dd.tenPctOwner.length then
      ({ dd with tenPctOwner := dd.tenPctOwner ++ [stripTags line] }, none)
    else if strContains line "<officerTitle>" && dd.url.length != dd.officerTitle.length then
      ({ dd with officerTitle := dd.officerTitle ++ [stripTags line] }, none)
    else if strContains line "<transactionDate>" && dd.url.length != dd.transactionDate.length then
      (dd, some .transactionDate)
    else if strContains line "<transactionCode>" && dd.url.length != dd.transactionCode.length then
      ({ dd with transactionCode := dd.transactionCode ++ [stripTags line] }, none)
    else if strContains line "<transactionShares>" && dd.url.length != dd.numberOfShares.length then
      (dd, some .numberOfShares)
    else if strContains line "<transactionPricePerShare>" && dd.url.length != dd.pricePerShare.length then
      (dd, some .pricePerShare)
    else if strContains line "<sharesOwnedFollowingTransaction>" && dd.url.length != dd.sharesOwnedFollowingTrans.length then
      (dd, some .sharesOwnedFollowingTrans)
    else if strContains line "<directOrIndirectOwnership>" && dd.url.length != dd.ownershipNature.length then
      (dd, some .ownershipNature)
    else (dd, none)

/-- One iteration of the `for line in formtext` loop of `_form_qc`.
The state pairs the dictionary with the pending next-line label
(`none` models `nextline == False`; the Python pair
`nextline=True, label=L` is `some L`): a pending label consumes the
line as its value, otherwise the tag dispatch runs. -/
def qcStep : Datadict × Option NLabel → String → Datadict × Option NLabel
  | (dd, some l), line => (appendTo dd l (stripTags line), none)
  | (dd, none), line => qcStepTag dd line

/-- The filing qualifier and extractor `_form_qc`: `none` models the
Python `return None` for disqualified documents, otherwise the scan of
the non-empty lines is run from the dictionary holding just the URL. -/
def _form_qc (formtext url : String) : Option Datadict :=
  if qualGate formtext then
    let lines := (pySplitlines formtext).filter (fun l => l != "")
    let init : Datadict × Option NLabel := ({ emptyDatadict with url := [url] }, none)
    some ((lines.foldl qcStep init).1)
  else
    none

/-- The extraction result as a plain value (for concrete computations). -/
def qcResult (t u : String) : Datadict := (_form_qc t u).getD emptyDatadict

/-! ## Dates, business days and the US federal holiday calendar

A date is its serial day number: days since 1970-01-01 (a Thursday).
The pandas objects used by `_date_list_generator` are modelled on this
representation: `date_range` / `bdate_range` as ascending lists and
`USFederalHolidayCalendar` by its eleven observance rules. -/

/-- Gregorian leap year test. -/
def isLeap (y : Nat) : Bool := (y % 4 == 0 && y % 100 != 0) || y % 400 == 0

/-- Number of days in a year. -/
def daysInYear (y : Nat) : Nat := if isLeap y then 366 else 365

/-- Number of days in a month (months are 1-based). -/
def daysInMonth (y m : Nat) : Nat :=
  if m == 2 then (if isLeap y then 29 else 28)
  else if m == 4 || m == 6 || m == 9 || m == 11 then 30
  else 31

/-- Days from the first of the year to the first of month `m`. -/
def daysBeforeMonth (y : Nat) : Nat → Nat
  | 0 => 0
  | 1 => 0
  | m + 1 => daysBeforeMonth y m + daysInMonth y m

/-- Days from 1970-01-01 to the first of year `y` (0 for `y ≤ 1970`). -/
def daysBeforeYear : Nat → Nat
  | 0 => 0
  | y + 1 => if 1970 ≤ y then daysBeforeYear y + daysInYear y else 0

/-- Serial day number of the calendar date `y-m-d`. -/
def toSerial (y m d : Nat) : Nat := daysBeforeYear y + daysBeforeMonth y m + (d - 1)

/-- Day of the week of a serial day: 0 = Sunday … 6 = Saturday
(1970-01-01 was a Thursday). -/
def weekday (rd : Nat) : Nat := (rd + 4) % 7

/-- Monday-to-Friday test (the pandas business-day frequency). -/
def isBusinessDay (rd : Nat) : Bool := weekday rd != 0 && weekday rd != 6

/-- Fuel-indexed year extraction: strip whole years off a day count.
The fuel (initially the day count itself) bounds the iteration. -/
def yearAuxF : Nat → Nat → Nat → Nat × Nat
  | 0, y, n => (y, n)
  | f + 1, y, n => if n < daysInYear y then (y, n) else yearAuxF f (y + 1) (n - daysInYear y)

/-- Calendar year of a serial day. -/
def yearOf (rd : Nat) : Nat := (yearAuxF rd 1970 rd).1

/-- Day-of-year (0-based) of a serial day. -/
def doyOf (rd : Nat) : Nat := (yearAuxF rd 1970 rd).2

/-- Fuel-indexed month extraction from a day-of-year. -/
def monthAuxF (y : Nat) : Nat → Nat → Nat → Nat × Nat
  | 0, m, n => (m, n + 1)
  | f + 1, m, n =>
    if n < daysInMonth y m then (m, n + 1) else monthAuxF y f (m + 1) (n - daysInMonth y m)

/-- Calendar month (1-based) of a serial day. -/
def monthOf (rd : Nat) : Nat := (monthAuxF (yearOf rd) (doyOf rd) 1 (doyOf rd)).1

/-- Day of the month (1-based) of a serial day. -/
def dayOf (rd : Nat) : Nat := (monthAuxF (yearOf rd) (doyOf rd) 1 (doyOf rd)).2

/-- Observance rule `nearest_workday`: Saturday moves to Friday,
Sunday moves to Monday. -/
def nearestWorkday (y m d : Nat) : Nat :=
  let s := toSerial y m d
  if weekday s == 6 then s - 1 else if weekday s == 0 then s + 1 else s

/-- Serial day of the n-th given weekday of a month. -/
def nthWeekdayOf (y m wd n : Nat) : Nat :=
  let first := toSerial y m 1
  first + (wd + 7 - weekday first) % 7 + 7 * (n - 1)

/-- Serial day of the last given weekday of a month. -/
def lastWeekdayOf (y m wd : Nat) : Nat :=
  let last := toSerial y m (daysInMonth y m)
  last - (weekday last + 7 - wd) % 7

/-- The observed US federal holidays generated for rule year `y`
(pandas `USFederalHolidayCalendar.rules`): New Year's Day, Martin
Luther King Jr, Presidents Day, Memorial Day, Juneteenth (rule starts
2021), Independence Day, Labor Day, Columbus Day, Veterans Day,
Thanksgiving, Christmas. -/
def rulesForYear (y : Nat) : List Nat :=
  [nearestWorkday y 1 1,
   nthWeekdayOf y 1 1 3,
   nthWeekdayOf y 2 1 3,
   lastWeekdayOf y 5 1] ++
  (if 2021 ≤ y then [nearestWorkday y 6 19] else []) ++
  [nearestWorkday y 7 4,
   nthWeekdayOf y 9 1 1,
   nthWeekdayOf y 10 1 2,
   nearestWorkday y 11 11,
   nthWeekdayOf y 11 4 4,
   nearestWorkday y 12 25]

/-- Rule years expanded for a query interval (the calendar generates
each rule from the year before the interval start to the year after
its end, then filters). -/
def yearsSpan (lo hi : Nat) : List Nat :=
  (List.range (yearOf hi + 2 - (yearOf lo - 1))).map (fun i => yearOf lo - 1 + i)

/-- The calendar query `USFederalHolidayCalendar().holidays(start, end)`. -/
def calendarHolidays (lo hi : Nat) : List Nat :=
  (((yearsSpan lo hi).map rulesForYear).flatten).filter (fun h => lo ≤ h && h ≤ hi)

/-- A day is a configured public holiday when some rule year generates
it (a rule for year `y` only ever produces a day in year `y` or, for a
New Year's Day observed on December 31, the year before). -/
def isConfiguredHoliday (d : Nat) : Bool :=
  (rulesForYear (yearOf d)).contains d || (rulesForYear (yearOf d + 1)).contains d

/-- Model of `pd.date_range(start, end)`: every day of `[start, end]`. -/
def date_range (s e : Nat) : List Nat := (List.range (e + 1 - s)).map (fun i => s + i)

/-- Model of `pd.bdate_range(start, end)`: the business days of
`[start, end]`. -/
def bdate_range (s e : Nat) : List Nat := (date_range s e).filter isBusinessDay

/-- Minimum of a generated (ascending) pandas index. -/
def idxMin (l : List Nat) : Nat := l.headD 0

/-- Maximum of a generated (ascending) pandas index. -/
def idxMax (l : List Nat) : Nat := l.getLastD 0

/-- Fuel-indexed first-occurrence deduplication (pandas `unique`). -/
def uniqueFirstF : Nat → List Nat → List Nat
  | 0, _ => []
  | _ + 1, [] => []
  | f + 1, a :: l => a :: uniqueFirstF f (l.filter (fun b => b != a))

/-- Pandas `Series.unique`: deduplicate keeping first occurrences. -/
def uniqueFirst (l : List Nat) : List Nat := uniqueFirstF l.length l

/-- The business-day calendar `_date_list_generator`.  Note that, as in
the source, the `holidays` parameter is never read: in the
`not weekends` branch the local name `holidays` is rebound to the
calendar query before any use. -/
def _date_list_generator (start e : Nat) (weekends holidays : Bool) : List Nat :=
  let daterange := if weekends then date_range start e else bdate_range start e
  if !weekends then
    let holidays := calendarHolidays (idxMin daterange) (idxMax daterange)
    uniqueFirst (daterange.filter (fun d => !(holidays.contains d)))
  else
    uniqueFirst daterange

/-! ## The index locator (URL construction in `download`) -/

/-- Zero padding as performed by `strftime` format codes. -/
def padZeros (k : Nat) (n : Nat) : String :=
  let s := toString n
  if s.length < k then String.mk (List.replicate (k - s.length) '0') ++ s else s

/-- The quarter formula `(int(date.month)-1)//3 + 1`. -/
def quarterOfMonth (m : Nat) : Nat := (m - 1) / 3 + 1

/-- The daily-index URL built for one date inside `download`. -/
def indexURL (rd : Nat) : String :=
  "https://www.sec.gov/Archives/edgar/daily-index/" ++ padZeros 4 (yearOf rd) ++
  "/QTR" ++ toString (quarterOfMonth (monthOf rd)) ++
  "/company." ++ padZeros 4 (yearOf rd) ++ padZeros 2 (monthOf rd) ++ padZeros 2 (dayOf rd) ++
  ".idx"

/-! ## The index parser `_idx_to_dataframe` -/

/-- Tokenization of one index row: split on the three-space delimiter,
strip each token, drop empty tokens. -/
def tokenizeIdxLine (y : String) : List String :=
  ((pySplit y "   ").map pyStrip).filter (fun t => t != "")

/-- The index parser: skip the first 11 lines, tokenize each remaining
line and append the source URL.  A row is the cell list of one
dataframe row in column order
company_name, form_type, cik, date_filed, file_name, idx_name. -/
def _idx_to_dataframe (idx idx_url : String) : List (List String) :=
  ((pySplitlines idx).drop 11).map (fun y => tokenizeIdxLine y ++ [idx_url])

/-- One parsed index row under its column names. -/
structure IndexRecord where
  company_name : String
  form_type : String
  cik : String
  date_filed : String
  file_name : String
  idx_name : String
deriving DecidableEq, Repr

/-- View a six-cell row as an `IndexRecord`. -/
def rowToRecord (r : List String) : Option IndexRecord :=
  match r with
  | [a, b, c, d, e, f] => some ⟨a, b, c, d, e, f⟩
  | _ => none

/-! ## The bulk fetcher

The network is an environment mapping each URL to its stream of
responses, one per attempt of the retry loop of
`_download_one_threaded` (`none` models a transport exception on that
attempt). -/

/-- The per-URL fetch `_download_one_threaded`: a transport error
returns nothing; a rate-limited body sleeps and retries with the next
response; an access-denied body returns nothing; otherwise the body is
returned. -/
def _download_one_threaded : List (Option String) → Option String
  | [] => none
  | none :: _ => none
  | some t :: rest =>
    if strContains t "Request Rate Threshold Exceeded" then _download_one_threaded rest
    else if strContains t "AccessDenied" then none
    else some t

/-- The bulk fetcher `_download_thread`: fetch every URL (the pool's
`imap` preserves input order), pair results with their URLs positionally
and drop the URLs whose fetch yielded nothing. -/
def _download_thread (R : String → List (Option String)) (urls : List String) :
    List (String × String) :=
  ((urls.map (fun u => _download_one_threaded (R u))).zip urls).filterMap
    (fun x => match x.1 with | none => none | some t => some (t, x.2))

/-! ## Concatenation, cleaning and the orchestrator `download` -/

/-- Concatenation `_append_dataframes` at the index stage (row lists);
`dfs[0]` on an empty list raises, modelled by `none`. -/
def _append_dataframes_rows (dfs : List (List (List String))) : Option (List (List String)) :=
  match dfs with
  | [] => none
  | d :: rest => some (d ++ rest.flatten)

/-- Columnwise concatenation of two filing tables. -/
def concatDD (a b : Datadict) : Datadict :=
  ⟨a.url ++ b.url, a.date ++ b.date, a.issuerCik ++ b.issuerCik,
   a.issuerName ++ b.issuerName, a.issuerTicker ++ b.issuerTicker,
   a.ownerCik ++ b.ownerCik, a.ownerName ++ b.ownerName,
   a.director ++ b.director, a.officer ++ b.officer,
   a.tenPctOwner ++ b.tenPctOwner, a.officerTitle ++ b.officerTitle,
   a.transactionDate ++ b.transactionDate, a.transactionCode ++ b.transactionCode,
   a.numberOfShares ++ b.numberOfShares, a.pricePerShare ++ b.pricePerShare,
   a.sharesOwnedFollowingTrans ++ b.sharesOwnedFollowingTrans,
   a.ownershipNature ++ b.ownershipNature⟩

/-- Concatenation `_append_dataframes` at the filing stage. -/
def _append_dataframes_dd (dfs : List Datadict) : Option Datadict :=
  match dfs with
  | [] => none
  | d :: rest => some (rest.foldl concatDD d)

/-- The value replacement applied by `Series.replace` in
`_clean_download`. -/
def repl01 (s : String) : String :=
  if s = "0" then "false" else if s = "1" then "true" else s

/-- The final cleaning step `_clean_download`: normalize the Director
and Officer columns. -/
def _clean_download (df : Datadict) : Datadict :=
  { df with director := df.director.map repl01, officer := df.officer.map repl01 }

/-- Python values that can be passed for the `form` argument. -/
inductive PyVal where
  | pstr (s : String)
  | pint (n : Int)
  | pbool (b : Bool)
  | pnone
deriving DecidableEq, Repr

/-- Python truthiness of a `form` argument. -/
def truthy : PyVal → Bool
  | .pstr s => s != ""
  | .pint n => n != 0
  | .pbool b => b
  | .pnone => false

/-- The `isinstance(form, str)` test. -/
def isStr : PyVal → Bool
  | .pstr _ => true
  | _ => false

/-- The underlying string of a string-valued `form` argument. -/
def pyStrVal : PyVal → String
  | .pstr s => s
  | _ => ""

/-- Observable pipeline events: a thread-pool fetch of a URL batch, or
the `TypeError` raised for a non-string form filter. -/
inductive DlEvent where
  | fetchBatch (urls : List String)
  | typeError
deriving DecidableEq, Repr

/-- Exceptions `download` can surface in this model. -/
inductive PyError where
  | typeErr
  | indexErr
deriving DecidableEq, Repr

/-- The orchestrator `download` over explicit start/end serial dates,
returning the ordered list of observable events together with the
result (the final cleaned table) or the exception that aborted the
run. -/
def download (R : String → List (Option String)) (start e : Nat) (form : PyVal) :
    List DlEvent × Except PyError Datadict :=
  let urls := (_date_list_generator start e false false).map indexURL
  let results := _download_thread R urls
  let ev1 : List DlEvent := [.fetchBatch urls]
  let dfs := results.map (fun p => _idx_to_dataframe p.1 p.2)
  match _append_dataframes_rows dfs with
  | none => (ev1, .error .indexErr)
  | some df =>
    if truthy form && !(isStr form) then
      (ev1 ++ [.typeError], .error .typeErr)
    else
      let df2 := if truthy form then df.filter (fun row => row.getD 1 "" == pyStrVal form) else df
      let urls2 := df2.map (fun row => "https://www.sec.gov/Archives/" ++ row.getD 4 "")
      let results2 := _download_thread R urls2
      let ev2 := ev1 ++ [DlEvent.fetchBatch urls2]
      let dds := (results2.map (fun p => _form_qc p.1 p.2)).filterMap id
      match _append_dataframes_dd dds with
      | none => (ev2, .error .indexErr)
      | some dd => (ev2, .ok (_clean_download dd))

/-! ## Invariants and concrete sample data used by the theorems -/

/-- Every value column's length is at most the URL column's length. -/
def ColsLe (dd : Datadict) : Prop :=
  dd.date.length ≤ dd.url.length ∧
  dd.issuerCik.length ≤ dd.url.length ∧
  dd.issuerName.length ≤ dd.url.length ∧
  dd.issuerTicker.length ≤ dd.url.length ∧
  dd.ownerCik.length ≤ dd.url.length ∧
  dd.ownerName.length ≤ dd.url.length ∧
  dd.director.length ≤ dd.url.length ∧
  dd.officer.length ≤ dd.url.length ∧
  dd.tenPctOwner.length ≤ dd.url.length ∧
  dd.officerTitle.length ≤ dd.url.length ∧
  dd.transactionDate.length ≤ dd.url.length ∧
  dd.transactionCode.length ≤ dd.url.length ∧
  dd.numberOfShares.length ≤ dd.url.length ∧
  dd.pricePerShare.length ≤ dd.url.length ∧
  dd.sharesOwnedFollowingTrans.length ≤ dd.url.length ∧
  dd.ownershipNature.length ≤ dd.url.length

instance (dd : Datadict) : Decidable (ColsLe dd) := by
  unfold ColsLe; exact inferInstance

/-- The column a pending next-line label stores into. -/
def nlabelCol (dd : Datadict) : NLabel → List String
  | .transactionDate => dd.transactionDate
  | .numberOfShares => dd.numberOfShares
  | .pricePerShare => dd.pricePerShare
  | .sharesOwnedFollowingTrans => dd.sharesOwnedFollowingTrans
  | .ownershipNature => dd.ownershipNature

/-- When a next-line value is pending, its target column is still
strictly behind the URL count (so the unconditional append of the next
line cannot overfill it). -/
def PendingOk : Datadict × Option NLabel → Prop
  | (_, none) => True
  | (dd, some l) => (nlabelCol dd l).length < dd.url.length

instance (st : Datadict × Option NLabel) : Decidable (PendingOk st) :=
  match st with
  | (_, none) => isTrue trivial
  | (dd, some l) => Nat.decLt _ _

/-- The scan invariant of the `_form_qc` extraction loop. -/
def ScanInv (st : Datadict × Option NLabel) : Prop :=
  ColsLe st.1 ∧ PendingOk st

instance (st : Datadict × Option NLabel) : Decidable (ScanInv st) := by
  unfold ScanInv; exact inferInstance

/-- The lines of a document that contain a given tag. -/
def linesContaining (t pat : String) : List String :=
  (pySplitlines t).filter (fun l => strContains l pat)

/-- A clean, fully qualifying Form 4 document. -/
def docQC : String :=
"<periodOfReport>2020-02-03</periodOfReport>\n<issuerCik>111</issuerCik>\n<issuerName>FOO INC</issuerName>\n<issuerTradingSymbol>FOO</issuerTradingSymbol>\n<reportingOwner>\n<rptOwnerCik>222</rptOwnerCik>\n<rptOwnerName>SMITH JANE</rptOwnerName>\n<isDirector>1</isDirector>\n<isOfficer>0</isOfficer>\n<isTenPercentOwner>0</isTenPercentOwner>\n<officerTitle>None</officerTitle>\n<nonDerivativeTransaction>\n<transactionDate>\n<value>2020-02-01</value>\n<transactionCode>S</transactionCode>\n<transactionShares>\n<value>500</value>\n<transactionPricePerShare>\n<value>9.25</value>\n<sharesOwnedFollowingTransaction>\n<value>1000</value>\n<directOrIndirectOwnership>\n<value>D</value>\n"

/-- A qualifying document whose first transactionCode tag line directly
follows a bare transactionDate tag line, so the scanner consumes it as
the pending next-line value; a second transactionCode tag appears
later with a different code. -/
def doc3 : String :=
"<periodOfReport>2020-01-01</periodOfReport>\n<issuerCik>123</issuerCik>\n<issuerName>ACME</issuerName>\n<issuerTradingSymbol>ACM</issuerTradingSymbol>\n<reportingOwner>\n<rptOwnerCik>456</rptOwnerCik>\n<rptOwnerName>DOE</rptOwnerName>\n<isDirector>1</isDirector>\n<isOfficer>1</isOfficer>\n<isTenPercentOwner>0</isTenPercentOwner>\n<officerTitle>CEO</officerTitle>\n<nonDerivativeTransaction>\n<transactionDate>\n<transactionCode>S</transactionCode>\n<transactionShares>\n<value>100</value>\n<transactionPricePerShare>\n<value>10</value>\n<sharesOwnedFollowingTransaction>\n<value>50</value>\n<directOrIndirectOwnership>\n<value>D</value>\n<transactionCode>P</transactionCode>\n"

/-- A document satisfying every qualification condition except that the
nonDerivativeTransaction tag occurs twice. -/
def doc4 : String :=
"<periodOfReport>2020-02-03</periodOfReport>\n<issuerCik>111</issuerCik>\n<issuerName>FOO INC</issuerName>\n<issuerTradingSymbol>FOO</issuerTradingSymbol>\n<reportingOwner>\n<rptOwnerCik>222</rptOwnerCik>\n<rptOwnerName>SMITH JANE</rptOwnerName>\n<isDirector>1</isDirector>\n<isOfficer>0</isOfficer>\n<isTenPercentOwner>0</isTenPercentOwner>\n<officerTitle>None</officerTitle>\n<nonDerivativeTransaction>\n<transactionDate>\n<value>2020-02-01</value>\n<transactionCode>S</transactionCode>\n<transactionShares>\n<value>500</value>\n<transactionPricePerShare>\n<value>9.25</value>\n<sharesOwnedFollowingTransaction>\n<value>1000</value>\n<directOrIndirectOwnership>\n<value>D</value>\n<nonDerivativeTransaction>\n"

/-- A dictionary that already holds a full row (one value per column). -/
def ddFull : Datadict :=
  ⟨["u"], ["2020-02-03"], ["111"], ["FOO INC"], ["FOO"], ["222"], ["SMITH JANE"],
   ["1"], ["0"], ["0"], ["None"], ["2020-02-01"], ["S"], ["500"], ["9.25"],
   ["1000"], ["D"]⟩

/-- The eleven header lines of a sample daily-index document. -/
def header5 : List String :=
  ["Daily Index", "h2", "h3", "h4", "h5", "h6", "h7", "h8", "h9", "h10", "h11"]

/-- Two well-formed rows of a sample daily-index document. -/
def rows5 : List String :=
  ["ACME CORP   4   123456   2020-01-02   edgar/data/123456/0001.txt",
   "BETA LLC   10-K   999   2020-01-02   edgar/data/999/0002.txt"]

/-- A sample daily-index document: eleven header lines and two rows. -/
def idx5 : String :=
"Daily Index\nh2\nh3\nh4\nh5\nh6\nh7\nh8\nh9\nh10\nh11\nACME CORP   4   123456   2020-01-02   edgar/data/123456/0001.txt\nBETA LLC   10-K   999   2020-01-02   edgar/data/999/0002.txt"

/-- A network environment in which every URL succeeds with body "a". -/
def R0 : String → List (Option String) := fun _ => [some "a"]

/-- A network environment with one good URL, one transport error and
one access-denied response. -/
def R8 : String → List (Option String) := fun u =>
  if u = "bad" then [none]
  else if u = "denied" then [some "xAccessDeniedx"]
  else [some ("ok:" ++ u)]

/-- The URL batch used with `R8`. -/
def urls8 : List String := ["a", "bad", "denied"]

/-- A sample filing table used to instantiate the cleaning theorem. -/
def df9 : Datadict :=
  ⟨["u1", "u2", "u3"], ["d", "d", "d"], ["1", "1", "1"], ["A", "A", "A"],
   ["A", "A", "A"], ["2", "2", "2"], ["N", "N", "N"],
   ["1", "0", "true"], ["0", "1", "false"], ["0", "0", "0"], ["t", "t", "t"],
   ["td", "td", "td"], ["S", "P", "S"], ["5", "5", "5"], ["9", "9", "9"],
   ["10", "10", "10"], ["D", "D", "D"]⟩

/-! ## Lemmas about the scan of `_form_qc` -/

/-- Extract the right conjunct of a true Boolean conjunction. -/
theorem bandRight {a b : Bool} (h : (a && b) = true) : b = true := by
  simp only [Bool.and_eq_true] at h
  exact h.2


/-- The scan invariant survives appending to the date column when it
is strictly behind the URL column. -/
theorem scanInvApp_date (dd : Datadict) (v : String) (hc : ColsLe dd)
    (hne : (dd.url.length != dd.date.length) = true) :
    ScanInv ({ dd with date := dd.date ++ [v] }, none) := by
  obtain ⟨c1, c2, c3, c4, c5, c6, c7, c8, c9, c10, c11, c12, c13, c14, c15, c16⟩ := hc
  rw [bne_iff_ne] at hne
  refine ⟨?_, trivial⟩
  unfold ColsLe
  dsimp only
  simp only [List.length_append, List.length_cons, List.length_nil]
  omega


/-- The scan invariant survives appending to the issuerCik column when it
is strictly behind the URL column. -/
theorem scanInvApp_issuerCik (dd : Datadict) (v : String) (hc : ColsLe dd)
    (hne : (dd.url.length != dd.issuerCik.length) = true) :
    ScanInv ({ dd with issuerCik := dd.issuerCik ++ [v] }, none) := by
  obtain ⟨c1, c2, c3, c4, c5, c6, c7, c8, c9, c10, c11, c12, c13, c14, c15, c16⟩ := hc
  rw [bne_iff_ne] at hne
  refine ⟨?_, trivial⟩
  unfold ColsLe
  dsimp only
  simp only [List.length_append, List.length_cons, List.length_nil]
  omega


/-- The scan invariant survives appending to the issuerName column when it
is strictly behind the URL column. -/
theorem scanInvApp_issuerName (dd : Datadict) (v : String) (hc : ColsLe dd)
    (hne : (dd.url.length != dd.issuerName.length) = true) :
    ScanInv ({ dd with issuerName := dd.issuerName ++ [v] }, none) := by
  obtain ⟨c1, c2, c3, c4, c5, c6, c7, c8, c9, c10, c11, c12, c13, c14, c15, c16⟩ := hc
  rw [bne_iff_ne] at hne
  refine ⟨?_, trivial⟩
  unfold ColsLe
  dsimp only
  simp only [List.length_append, List.length_cons, List.length_nil]
  omega


/-- The scan invariant survives appending to the issuerTicker column when it
is strictly behind the URL column. -/
theorem scanInvApp_issuerTicker (dd : Datadict) (v : String) (hc : ColsLe dd)
    (hne : (dd.url.length != dd.issuerTicker.length) = true) :
    ScanInv ({ dd with issuerTicker := dd.issuerTicker ++ [v] }, none) := by
  obtain ⟨c1, c2, c3, c4, c5, c6, c7, c8, c9, c10, c11, c12, c13, c14, c15, c16⟩ := hc
  rw [bne_iff_ne] at hne
  refine ⟨?_, trivial⟩
  unfold ColsLe
  dsimp only
  simp only [List.length_append, List.length_cons, List.length_nil]
  omega


/-- The scan invariant survives appending to the ownerCik column when it
is strictly behind the URL column. -/
theorem scanInvApp_ownerCik (dd : Datadict) (v : String) (hc : ColsLe dd)
    (hne : (dd.url.length != dd.ownerCik.length) = true) :
    ScanInv ({ dd with ownerCik := dd.ownerCik ++ [v] }, none) := by
  obtain ⟨c1, c2, c3, c4, c5, c6, c7, c8, c9, c10, c11, c12, c13, c14, c15, c16⟩ := hc
  rw [bne_iff_ne] at hne
  refine ⟨?_, trivial⟩
  unfold ColsLe
  dsimp only
  simp only [List.length_append, List.length_cons, List.length_nil]
  omega


/-- The scan invariant survives appending to the ownerName column when it
is strictly behind the URL column. -/
theorem scanInvApp_ownerName (dd : Datadict) (v : String) (hc : ColsLe dd)
    (hne : (dd.url.length != dd.ownerName.length) = true) :
    ScanInv ({ dd with ownerName := dd.ownerName ++ [v] }, none) := by
  obtain ⟨c1, c2, c3, c4, c5, c6, c7, c8, c9, c10, c11, c12, c13, c14, c15, c16⟩ := hc
  rw [bne_iff_ne] at hne
  refine ⟨?_, trivial⟩
  unfold ColsLe
  dsimp only
  simp only [List.length_append, List.length_cons, List.length_nil]
  omega


/-- The scan invariant survives appending to the director column when it
is strictly behind the URL column. -/
theorem scanInvApp_director (dd : Datadict) (v : String) (hc : ColsLe dd)
    (hne : (dd.url.length != dd.director.length) = true) :
    ScanInv ({ dd with director := dd.director ++ [v] }, none) := by
  obtain ⟨c1, c2, c3, c4, c5, c6, c7, c8, c9, c10, c11, c12, c13, c14, c15, c16⟩ := hc
  rw [bne_iff_ne] at hne
  refine ⟨?_, trivial⟩
  unfold ColsLe
  dsimp only
  simp only [List.length_append, List.length_cons, List.length_nil]
  omega


/-- The scan invariant survives appending to the officer column when it
is strictly behind the URL column. -/
theorem scanInvApp_officer (dd : Datadict) (v : String) (hc : ColsLe dd)
    (hne : (dd.url.length != dd.officer.length) = true) :
    ScanInv ({ dd with officer := dd.officer ++ [v] }, none) := by
  obtain ⟨c1, c2, c3, c4, c5, c6, c7, c8, c9, c10, c11, c12, c13, c14, c15, c16⟩ := hc
  rw [bne_iff_ne] at hne
  refine ⟨?_, trivial⟩
  unfold ColsLe
  dsimp only
  simp only [List.length_append, List.length_cons, List.length_nil]
  omega


/-- The scan invariant survives appending to the tenPctOwner column when it
is strictly behind the URL column. -/
theorem scanInvApp_tenPctOwner (dd : Datadict) (v : String) (hc : ColsLe dd)
    (hne : (dd.url.length != dd.tenPctOwner.length) = true) :
    ScanInv ({ dd with tenPctOwner := dd.tenPctOwner ++ [v] }, none) := by
  obtain ⟨c1, c2, c3, c4, c5, c6, c7, c8, c9, c10, c11, c12, c13, c14, c15, c16⟩ := hc
  rw [bne_iff_ne] at hne
  refine ⟨?_, trivial⟩
  unfold ColsLe
  dsimp only
  simp only [List.length_append, List.length_cons, List.length_nil]
  omega


/-- The scan invariant survives appending to the officerTitle column when it
is strictly behind the URL column. -/
theorem scanInvApp_officerTitle (dd : Datadict) (v : String) (hc : ColsLe dd)
    (hne : (dd.url.length != dd.officerTitle.length) = true) :
    ScanInv ({ dd with officerTitle := dd.officerTitle ++ [v] }, none) := by
  obtain ⟨c1, c2, c3, c4, c5, c6, c7, c8, c9, c10, c11, c12, c13, c14, c15, c16⟩ := hc
  rw [bne_iff_ne] at hne
  refine ⟨?_, trivial⟩
  unfold ColsLe
  dsimp only
  simp only [List.length_append, List.length_cons, List.length_nil]
  omega


/-- The scan invariant survives appending to the transactionCode column when it
is strictly behind the URL column. -/
theorem scanInvApp_transactionCode (dd : Datadict) (v : String) (hc : ColsLe dd)
    (hne : (dd.url.length != dd.transactionCode.length) = true) :
    ScanInv ({ dd with transactionCode := dd.transactionCode ++ [v] }, none) := by
  obtain ⟨c1, c2, c3, c4, c5, c6, c7, c8, c9, c10, c11, c12, c13, c14, c15, c16⟩ := hc
  rw [bne_iff_ne] at hne
  refine ⟨?_, trivial⟩
  unfold ColsLe
  dsimp only
  simp only [List.length_append, List.length_cons, List.length_nil]
  omega


/-- The scan invariant survives recording a pending next-line label for
a column strictly behind the URL column. -/
theorem scanInvPend (dd : Datadict) (l : NLabel) (hc : ColsLe dd)
    (hne : (dd.url.length != (nlabelCol dd l).length) = true) :
    ScanInv (dd, some l) := by
  obtain ⟨c1, c2, c3, c4, c5, c6, c7, c8, c9, c10, c11, c12, c13, c14, c15, c16⟩ := hc
  rw [bne_iff_ne] at hne
  refine ⟨⟨c1, c2, c3, c4, c5, c6, c7, c8, c9, c10, c11, c12, c13, c14, c15, c16⟩, ?_⟩
  cases l <;> (simp only [nlabelCol] at hne; simp only [PendingOk, nlabelCol]; omega)

/-- Case analysis of the tag dispatch: it never touches the URL
column, it preserves the scan invariant, and it never touches a
Transaction Code column that has caught up with the URL column. -/
theorem qcStepTag_master (dd : Datadict) (line : String) :
    (qcStepTag dd line).1.url = dd.url ∧
    (ColsLe dd → ScanInv (qcStepTag dd line)) ∧
    (dd.transactionCode.length = dd.url.length →
      (qcStepTag dd line).1.transactionCode = dd.transactionCode) := by
  unfold qcStepTag
  by_cases h1 : (strContains line "<periodOfReport>" && dd.url.length != dd.date.length) = true
  · rw [if_pos h1]
    exact ⟨rfl, fun hc => scanInvApp_date dd (stripTags line) hc (bandRight h1), fun _ => rfl⟩
  · rw [if_neg h1]
    by_cases h2 : (strContains line "<issuerCik>" && dd.url.length != dd.issuerCik.length) = true
    · rw [if_pos h2]
      exact ⟨rfl, fun hc => scanInvApp_issuerCik dd (stripTags line) hc (bandRight h2), fun _ => rfl⟩
    · rw [if_neg h2]
      by_cases h3 : (strContains line "<issuerName>" && dd.url.length != dd.issuerName.length) = true
      · rw [if_pos h3]
        exact ⟨rfl, fun hc => scanInvApp_issuerName dd (stripTags line) hc (bandRight h3), fun _ => rfl⟩
      · rw [if_neg h3]
        by_cases h4 : (strContains line "<issuerTradingSymbol>" && dd.url.length != dd.issuerTicker.length) = true
        · rw [if_pos h4]
          exact ⟨rfl, fun hc => scanInvApp_issuerTicker dd (stripTags line) hc (bandRight h4), fun _ => rfl⟩
        · rw [if_neg h4]
          by_cases h5 : (strContains line "<rptOwnerCik>" && dd.url.length != dd.ownerCik.length) = true
          · rw [if_pos h5]
            exact ⟨rfl, fun hc => scanInvApp_ownerCik dd (stripTags line) hc (bandRight h5), fun _ => rfl⟩
          · rw [if_neg h5]
            by_cases h6 : (strContains line "<rptOwnerName>" && dd.url.length != dd.ownerName.length) = true
            · rw [if_pos h6]
              exact ⟨rfl, fun hc => scanInvApp_ownerName dd (stripTags line) hc (bandRight h6), fun _ => rfl⟩
            · rw [if_neg h6]
              by_cases h7 : (strContains line "<isDirector>" && dd.url.length != dd.director.length) = true
              · rw [if_pos h7]
                exact ⟨rfl, fun hc => scanInvApp_director dd (stripTags line) hc (bandRight h7), fun _ => rfl⟩
              · rw [if_neg h7]
                by_cases h8 : (strContains line "<isOfficer>" && dd.url.length != dd.officer.length) = true
                · rw [if_pos h8]
                  exact ⟨rfl, fun hc => scanInvApp_officer dd (stripTags line) hc (bandRight h8), fun _ => rfl⟩
                · rw [if_neg h8]
                  by_cases h9 : (strContains line "<isTenPercentOwner>" && dd.url.length != dd.tenPctOwner.length) = true
                  · rw [if_pos h9]
                    exact ⟨rfl, fun hc => scanInvApp_tenPctOwner dd (stripTags line) hc (bandRight h9), fun _ => rfl⟩
                  · rw [if_neg h9]
                    by_cases h10 : (strContains line "<officerTitle>" && dd.url.length != dd.officerTitle.length) = true
                    · rw [if_pos h10]
                      exact ⟨rfl, fun hc => scanInvApp_officerTitle dd (stripTags line) hc (bandRight h10), fun _ => rfl⟩
                    · rw [if_neg h10]
                      by_cases h11 : (strContains line "<transactionDate>" && dd.url.length != dd.transactionDate.length) = true
                      · rw [if_pos h11]
                        exact ⟨rfl, fun hc => scanInvPend dd NLabel.transactionDate hc (bandRight h11), fun _ => rfl⟩
                      · rw [if_neg h11]
                        by_cases h12 : (strContains line "<transactionCode>" && dd.url.length != dd.transactionCode.length) = true
                        · rw [if_pos h12]
                          exact ⟨rfl, fun hc => scanInvApp_transactionCode dd (stripTags line) hc (bandRight h12), fun hcode => absurd hcode.symm (bne_iff_ne.mp (bandRight h12))⟩
                        · rw [if_neg h12]
                          by_cases h13 : (strContains line "<transactionShares>" && dd.url.length != dd.numberOfShares.length) = true
                          · rw [if_pos h13]
                            exact ⟨rfl, fun hc => scanInvPend dd NLabel.numberOfShares hc (bandRight h13), fun _ => rfl⟩
                          · rw [if_neg h13]
                            by_cases h14 : (strContains line "<transactionPricePerShare>" && dd.url.length != dd.pricePerShare.length) = true
                            · rw [if_pos h14]
                              exact ⟨rfl, fun hc => scanInvPend dd NLabel.pricePerShare hc (bandRight h14), fun _ => rfl⟩
                            · rw [if_neg h14]
                              by_cases h15 : (strContains line "<sharesOwnedFollowingTransaction>" && dd.url.length != dd.sharesOwnedFollowingTrans.length) = true
                              · rw [if_pos h15]
                                exact ⟨rfl, fun hc => scanInvPend dd NLabel.sharesOwnedFollowingTrans hc (bandRight h15), fun _ => rfl⟩
                              · rw [if_neg h15]
                                by_cases h16 : (strContains line "<directOrIndirectOwnership>" && dd.url.length != dd.ownershipNature.length) = true
                                · rw [if_pos h16]
                                  exact ⟨rfl, fun hc => scanInvPend dd NLabel.ownershipNature hc (bandRight h16), fun _ => rfl⟩
                                · rw [if_neg h16]
                                  exact ⟨rfl, fun hc => ⟨hc, trivial⟩, fun _ => rfl⟩

/-- The pending-label consumption preserves the scan invariant. -/
theorem scanInvPendStep (dd : Datadict) (l : NLabel) (v : String)
    (hp : PendingOk (dd, some l)) (hc : ColsLe dd) : ScanInv (appendTo dd l v, none) := by
  obtain ⟨c1, c2, c3, c4, c5, c6, c7, c8, c9, c10, c11, c12, c13, c14, c15, c16⟩ := hc
  cases l <;>
    (simp only [PendingOk, nlabelCol] at hp;
     refine ⟨?_, trivial⟩;
     unfold ColsLe;
     dsimp only [appendTo];
     simp only [List.length_append, List.length_cons, List.length_nil];
     omega)

/-- The URL column is never modified by a scan step. -/
theorem qcStep_url (st : Datadict × Option NLabel) (line : String) :
    (qcStep st line).1.url = st.1.url := by
  obtain ⟨dd, pending⟩ := st
  cases pending with
  | some l => cases l <;> rfl
  | none => exact (qcStepTag_master dd line).1

/-- The URL column is preserved across the whole scan. -/
theorem qcFold_url : ∀ (lines : List String) (st : Datadict × Option NLabel),
    (lines.foldl qcStep st).1.url = st.1.url
  | [], _ => rfl
  | line :: rest, st => by
    rw [List.foldl_cons, qcFold_url rest, qcStep_url]

/-- One scan step preserves the scan invariant. -/
theorem qcStep_inv (st : Datadict × Option NLabel) (line : String) (h : ScanInv st) :
    ScanInv (qcStep st line) := by
  obtain ⟨dd, pending⟩ := st
  obtain ⟨hc, hp⟩ := h
  cases pending with
  | some l => exact scanInvPendStep dd l (stripTags line) hp hc
  | none => exact (qcStepTag_master dd line).2.1 hc

/-- The scan invariant holds after folding any list of lines. -/
theorem qcFold_inv : ∀ (lines : List String) (st : Datadict × Option NLabel),
    ScanInv st → ScanInv (lines.foldl qcStep st)
  | [], _, h => h
  | line :: rest, st, h => qcFold_inv rest (qcStep st line) (qcStep_inv st line h)

/-- Once the Transaction Code column has caught up with the URL column,
a scan step leaves it unchanged. -/
theorem qcStep_code_frozen (st : Datadict × Option NLabel) (line : String)
    (h : st.1.transactionCode.length = st.1.url.length) :
    (qcStep st line).1.transactionCode = st.1.transactionCode := by
  obtain ⟨dd, pending⟩ := st
  cases pending with
  | some l => cases l <;> rfl
  | none => exact (qcStepTag_master dd line).2.2 h

/-- Once the Transaction Code column has caught up with the URL column,
the remainder of the scan leaves it unchanged. -/
theorem qcFold_code_frozen : ∀ (lines : List String) (st : Datadict × Option NLabel),
    st.1.transactionCode.length = st.1.url.length →
    (lines.foldl qcStep st).1.transactionCode = st.1.transactionCode
  | [], _, _ => rfl
  | line :: rest, st, h => by
    have hc := qcStep_code_frozen st line h
    have hu := qcStep_url st line
    have hrec := qcFold_code_frozen rest (qcStep st line) (by rw [hc, hu]; exact h)
    rw [List.foldl_cons, hrec, hc]

/-- The initial scan state satisfies the invariant. -/
theorem scanInv_init (u : String) :
    ScanInv ({ emptyDatadict with url := [u] }, none) := by
  refine ⟨?_, trivial⟩
  unfold ColsLe
  dsimp only [emptyDatadict]
  simp only [List.length_cons, List.length_nil]
  omega

/-! ## Claim theorems about the extractor -/

/-- C2: during the extraction scan of `_form_qc`, a value is appended to
a field's column only when that field's accumulated count is strictly
behind the URL count: the scan invariant (every column bounded by the
URL column, any pending next-line label strictly behind it) is
preserved by every step, and consequently every table returned has URL
count 1 and each column's populated length at most that count. -/
theorem formQC_alignment :
    (∀ (st : Datadict × Option NLabel) (line : String),
        ScanInv st → ScanInv (qcStep st line)) ∧
    (∀ t u dd, _form_qc t u = some dd → dd.url.length = 1 ∧ ColsLe dd) := by
  refine ⟨qcStep_inv, ?_⟩
  intro t u dd h
  unfold _form_qc at h
  split at h
  · have hdd := Option.some.inj h
    have hcols := (qcFold_inv ((pySplitlines t).filter (fun l => l != ""))
      ({ emptyDatadict with url := [u] }, none) (scanInv_init u)).1
    have hurl := qcFold_url ((pySplitlines t).filter (fun l => l != ""))
      ({ emptyDatadict with url := [u] }, none)
    rw [hdd] at hcols hurl
    exact ⟨by rw [hurl]; rfl, hcols⟩
  · exact absurd h (by simp)

set_option maxRecDepth 10000 in
/-- Witness for formQC_alignment: the invariant step applied to a
concrete scan state, and the conclusion applied to a concrete
qualifying document. -/
theorem formQC_alignment_witness :
    ScanInv (qcStep ({ emptyDatadict with url := ["u"] }, none) "<issuerCik>7</issuerCik>") ∧
    ((qcResult docQC "u").url.length = 1 ∧ ColsLe (qcResult docQC "u")) :=
  ⟨formQC_alignment.1 _ _ (by decide),
   formQC_alignment.2 docQC "u" (qcResult docQC "u") (by decide)⟩

/-- C3 (amended): in `_form_qc`, once the Transaction Code field holds a
value for the document (its count equals the URL count) every later
`transactionCode` tag is ignored, and at most one value is ever
recorded; but a `transactionCode` line that is consumed as the pending
next-line value of a preceding value-on-next-line tag is stored under
that pending field and not recorded as Transaction Code, so the value
recorded need not come from the first `transactionCode` occurrence of
the document. -/
theorem formQC_code_first_tag_position :
    (∀ (st : Datadict × Option NLabel) (lines : List String),
        st.1.transactionCode.length = st.1.url.length →
        (lines.foldl qcStep st).1.transactionCode = st.1.transactionCode) ∧
    (∀ (dd : Datadict) (l : NLabel) (line : String),
        (qcStep (dd, some l) line).1.transactionCode = dd.transactionCode) ∧
    (∀ t u dd, _form_qc t u = some dd → dd.transactionCode.length ≤ 1) := by
  refine ⟨fun st lines h => qcFold_code_frozen lines st h,
    fun dd l line => by cases l <;> rfl, ?_⟩
  intro t u dd h
  unfold _form_qc at h
  split at h
  · have hdd := Option.some.inj h
    have hcols := (qcFold_inv ((pySplitlines t).filter (fun l => l != ""))
      ({ emptyDatadict with url := [u] }, none) (scanInv_init u)).1
    have hurl := qcFold_url ((pySplitlines t).filter (fun l => l != ""))
      ({ emptyDatadict with url := [u] }, none)
    rw [hdd] at hcols hurl
    obtain ⟨c1, c2, c3, c4, c5, c6, c7, c8, c9, c10, c11, c12, c13, c14, c15, c16⟩ := hcols
    have : dd.url.length = 1 := by rw [hurl]; rfl
    omega
  · exact absurd h (by simp)

set_option maxRecDepth 10000 in
/-- Counterexample to C3 as stated: `doc3` qualifies and contains two
`transactionCode` tags, the first of which is the line
`<transactionCode>S</transactionCode>` carrying value S, yet the
extracted Transaction Code is P, taken from the second occurrence (the
first was consumed as the pending next-line value of the preceding bare
`transactionDate` tag). -/
theorem formQC_first_code_counterexample :
    qualGate doc3 = true ∧
    strCount doc3 "<transactionCode>" = 2 ∧
    (linesContaining doc3 "<transactionCode>").head? =
      some "<transactionCode>S</transactionCode>" ∧
    stripTags "<transactionCode>S</transactionCode>" = "S" ∧
    (_form_qc doc3 "u").map Datadict.transactionCode = some ["P"] :=
  ⟨by decide, by decide, by decide, by decide, by decide⟩

set_option maxRecDepth 10000 in
/-- Witness for formQC_code_first_tag_position: a full dictionary is
left unchanged by a further transactionCode line, and a concrete
extraction records at most one code. -/
theorem formQC_code_first_tag_position_witness :
    ((["<transactionCode>P</transactionCode>"].foldl qcStep (ddFull, none)).1.transactionCode
       = ddFull.transactionCode) ∧
    (qcResult doc3 "u").transactionCode.length ≤ 1 :=
  ⟨formQC_code_first_tag_position.1 (ddFull, none) _ rfl,
   formQC_code_first_tag_position.2.2 doc3 "u" (qcResult doc3 "u") (by decide)⟩

/-- C4: `_form_qc` returns absent for every document in which the
substring nonDerivativeTransaction-tag count differs from one,
regardless of the remaining qualification conditions. -/
theorem formQC_requires_single_nonDerivative (t u : String)
    (h : strCount t "<nonDerivativeTransaction>" ≠ 1) :
    _form_qc t u = none := by
  unfold _form_qc
  have hg : qualGate t = false := by
    unfold qualGate
    have hb : (strCount t "<nonDerivativeTransaction>" == 1) = false := by
      simpa using h
    simp [hb]
  rw [hg]
  simp

set_option maxRecDepth 10000 in
/-- Witness for formQC_requires_single_nonDerivative: a document whose
every other qualification condition holds but whose
nonDerivativeTransaction count is two is rejected. -/
theorem formQC_requires_single_nonDerivative_witness :
    strCount doc4 "<nonDerivativeTransaction>" = 2 ∧
    refstrings1.any (fun s => strContains doc4 s) = true ∧
    refstrings2.any (fun p => strContains doc4 p) = true ∧
    strCount doc4 "<reportingOwner>" = 1 ∧
    searchlist.all (fun s => strContains doc4 s) = true ∧
    _form_qc doc4 "u" = none :=
  ⟨by decide, by decide, by decide, by decide, by decide,
   formQC_requires_single_nonDerivative doc4 "u" (by decide)⟩

/-! ## Claim theorem for the index parser -/

/-- A list of length five is a five-element literal. -/
theorem exists_five_of_length (t : List String) (h : t.length = 5) :
    ∃ a b c d e, t = [a, b, c, d, e] := by
  match t, h with
  | [a, b, c, d, e], _ => exact ⟨a, b, c, d, e, rfl⟩

/-- C5: on a document made of 11 header lines followed by well-formed
rows (rows whose tokenization yields five tokens), `_idx_to_dataframe`
skips exactly the 11 header lines and yields one record per row, the
tokens mapping positionally to company_name, form_type, cik,
date_filed, file_name, with idx_name the supplied source URL. -/
theorem idx_parser_positional (idx url : String) (header rows : List String)
    (hsplit : pySplitlines idx = header ++ rows)
    (hlen : header.length = 11)
    (hwf : ∀ r ∈ rows, (tokenizeIdxLine r).length = 5) :
    _idx_to_dataframe idx url = rows.map (fun r => tokenizeIdxLine r ++ [url]) ∧
    (_idx_to_dataframe idx url).length = rows.length ∧
    (∀ r ∈ rows, rowToRecord (tokenizeIdxLine r ++ [url]) =
      some ⟨(tokenizeIdxLine r).getD 0 "", (tokenizeIdxLine r).getD 1 "",
            (tokenizeIdxLine r).getD 2 "", (tokenizeIdxLine r).getD 3 "",
            (tokenizeIdxLine r).getD 4 "", url⟩) := by
  have hmain : _idx_to_dataframe idx url = rows.map (fun r => tokenizeIdxLine r ++ [url]) := by
    unfold _idx_to_dataframe
    rw [hsplit, ← hlen, List.drop_left]
  refine ⟨hmain, by rw [hmain, List.length_map], ?_⟩
  intro r hr
  obtain ⟨a, b, c, d, e, htok⟩ := exists_five_of_length _ (hwf r hr)
  rw [htok]
  rfl

set_option maxRecDepth 10000 in
/-- Witness for idx_parser_positional on a concrete index document of
eleven header lines and two rows. -/
theorem idx_parser_positional_witness :
    pySplitlines idx5 = header5 ++ rows5 ∧
    (_idx_to_dataframe idx5 "http://x.idx").length = rows5.length ∧
    _idx_to_dataframe idx5 "http://x.idx" =
      [["ACME CORP", "4", "123456", "2020-01-02", "edgar/data/123456/0001.txt", "http://x.idx"],
       ["BETA LLC", "10-K", "999", "2020-01-02", "edgar/data/999/0002.txt", "http://x.idx"]] ∧
    rowToRecord (tokenizeIdxLine (rows5.getD 0 "") ++ ["http://x.idx"]) =
      some ⟨"ACME CORP", "4", "123456", "2020-01-02", "edgar/data/123456/0001.txt", "http://x.idx"⟩ :=
  ⟨by decide, (idx_parser_positional idx5 "http://x.idx" header5 rows5 (by decide) (by decide)
      (by decide)).2.1, by decide,
   by
    have := (idx_parser_positional idx5 "http://x.idx" header5 rows5 (by decide) (by decide)
      (by decide)).2.2 (rows5.getD 0 "") (by decide)
    rw [this]
    decide⟩

/-! ## Lemmas about dates and the business-day calendar -/

/-- A year has at least 365 days. -/
theorem daysInYear_pos (y : Nat) : 365 ≤ daysInYear y := by
  unfold daysInYear; split <;> omega

/-- Year extraction never goes below its starting year. -/
theorem yearAuxF_le (f y n : Nat) : y ≤ (yearAuxF f y n).1 := by
  induction f generalizing y n with
  | zero => exact Nat.le_refl y
  | succ f ih =>
    unfold yearAuxF
    split
    · exact Nat.le_refl y
    · exact Nat.le_trans (Nat.le_succ y) (ih (y + 1) _)

/-- Year extraction is monotone in the day count whenever the fuel is
sufficient. -/
theorem yearAuxF_mono (f1 f2 y n m : Nat) (hnm : n ≤ m) (hn1 : n ≤ f1) (hm2 : m ≤ f2) :
    (yearAuxF f1 y n).1 ≤ (yearAuxF f2 y m).1 := by
  induction f1 generalizing f2 y n m with
  | zero =>
    have hn : n = 0 := by omega
    subst hn
    exact yearAuxF_le f2 y m
  | succ f1 ih =>
    by_cases h : n < daysInYear y
    · have hl : (yearAuxF (f1 + 1) y n).1 = y := by
        unfold yearAuxF
        rw [if_pos h]
      rw [hl]
      exact yearAuxF_le f2 y m
    · have hdy : 365 ≤ daysInYear y := daysInYear_pos y
      obtain ⟨f2', rfl⟩ : ∃ f2', f2 = f2' + 1 := by
        cases f2 with
        | zero => omega
        | succ k => exact ⟨k, rfl⟩
      have hm : ¬ m < daysInYear y := by omega
      have hl : yearAuxF (f1 + 1) y n = yearAuxF f1 (y + 1) (n - daysInYear y) := by
        simp only [yearAuxF]; rw [if_neg h]
      have hr : yearAuxF (f2' + 1) y m = yearAuxF f2' (y + 1) (m - daysInYear y) := by
        simp only [yearAuxF]; rw [if_neg hm]
      rw [hl, hr]
      exact ih f2' (y + 1) _ _ (by omega) (by omega) (by omega)

/-- The calendar year of a serial day is monotone. -/
theorem yearOf_mono {d1 d2 : Nat} (h : d1 ≤ d2) : yearOf d1 ≤ yearOf d2 :=
  yearAuxF_mono d1 d2 1970 d1 d2 h (Nat.le_refl d1) (Nat.le_refl d2)

/-- In a sorted list every element dominates the head. -/
theorem sorted_headD_le (l : List Nat) (hp : List.Pairwise (· ≤ ·) l) (d : Nat)
    (hd : d ∈ l) : l.headD 0 ≤ d := by
  cases l with
  | nil => cases hd
  | cons a t =>
    rcases List.mem_cons.mp hd with rfl | hdt
    · exact Nat.le_refl d
    · exact List.rel_of_pairwise_cons hp hdt

/-- In a sorted list every element is dominated by the last element. -/
theorem sorted_le_getLastD : ∀ (l : List Nat) (a : Nat), List.Pairwise (· ≤ ·) l →
    ∀ d ∈ l, d ≤ l.getLastD a
  | [], _, _, d, hd => absurd hd (by simp)
  | b :: t, a, hp, d, hd => by
    rw [List.getLastD_cons]
    rcases List.mem_cons.mp hd with rfl | hdt
    · have hm := List.getLastD_mem_cons t d
      rcases List.mem_cons.mp hm with heq | hmem
      · rw [heq]
      · exact List.rel_of_pairwise_cons hp hmem
    · exact sorted_le_getLastD t b hp.of_cons d hdt

/-- First-occurrence deduplication is the identity on duplicate-free
lists (given sufficient fuel). -/
theorem uniqueFirstF_eq_self : ∀ (f : Nat) (l : List Nat), l.Nodup → l.length ≤ f →
    uniqueFirstF f l = l
  | 0, [], _, _ => rfl
  | 0, _ :: _, _, h => by simp at h
  | _ + 1, [], _, _ => rfl
  | f + 1, a :: l, hnd, h => by
    have hfa : l.filter (fun b => b != a) = l := by
      rw [List.filter_eq_self]
      intro b hb
      have hba : b ≠ a := by
        intro hba; subst hba; exact (List.nodup_cons.mp hnd).1 hb
      simpa using hba
    unfold uniqueFirstF
    rw [hfa, uniqueFirstF_eq_self f l (List.nodup_cons.mp hnd).2 (by simpa using h)]

/-- Pandas unique is the identity on duplicate-free lists. -/
theorem uniqueFirst_eq_self (l : List Nat) (h : l.Nodup) : uniqueFirst l = l :=
  uniqueFirstF_eq_self l.length l h (Nat.le_refl _)

/-- A generated date range is strictly ascending. -/
theorem date_range_pairwise (s e : Nat) : List.Pairwise (· < ·) (date_range s e) := by
  unfold date_range
  exact (List.pairwise_lt_range _).map _ (fun a b h => by omega)

/-- Every configured holiday inside the query interval, generated by a
rule year within one year of the interval's years, is reported by the
calendar query. -/
theorem mem_calendarHolidays (lo hi d y : Nat) (hlo : lo ≤ d) (hhi : d ≤ hi)
    (hy : d ∈ rulesForYear y) (hy1 : yearOf lo - 1 ≤ y) (hy2 : y ≤ yearOf hi + 1) :
    d ∈ calendarHolidays lo hi := by
  unfold calendarHolidays
  rw [List.mem_filter]
  refine ⟨?_, by simp only [Bool.and_eq_true, decide_eq_true_eq]; omega⟩
  rw [List.mem_flatten]
  refine ⟨rulesForYear y, ?_, hy⟩
  rw [List.mem_map]
  refine ⟨y, ?_, rfl⟩
  unfold yearsSpan
  rw [List.mem_map]
  refine ⟨y - (yearOf lo - 1), ?_, by omega⟩
  rw [List.mem_range]
  omega

/-- C6 (amended): for start ≤ end, `_date_list_generator` returns a
strictly ascending, deduplicated sequence; when weekends are excluded
(the default mode) the sequence also contains no Saturday or Sunday and
no configured public holiday — regardless of the holidays flag, which
the function never reads.  (When weekends are included, holidays are
not excluded even if the holidays flag asks for exclusion; see the
counterexample.) -/
theorem businessDates_spec (s e : Nat) (w hol : Bool) (hse : s ≤ e) :
    List.Pairwise (· < ·) (_date_list_generator s e w hol) ∧
    (_date_list_generator s e w hol).Nodup ∧
    (∀ d ∈ _date_list_generator s e w hol, w = false →
        isBusinessDay d = true ∧ isConfiguredHoliday d = false) := by
  cases w with
  | true =>
    have hred : _date_list_generator s e true hol = uniqueFirst (date_range s e) := rfl
    rw [hred]
    have hp := date_range_pairwise s e
    have hnd : (date_range s e).Nodup := hp.imp Nat.ne_of_lt
    rw [uniqueFirst_eq_self _ hnd]
    exact ⟨hp, hnd, fun d _ hw => by cases hw⟩
  | false =>
    have hred : _date_list_generator s e false hol =
        uniqueFirst ((bdate_range s e).filter
          (fun d => !((calendarHolidays (idxMin (bdate_range s e))
            (idxMax (bdate_range s e))).contains d))) := rfl
    rw [hred]
    have hpb : List.Pairwise (· < ·) (bdate_range s e) :=
      (date_range_pairwise s e).filter _
    have hpL : List.Pairwise (· < ·) ((bdate_range s e).filter
        (fun d => !((calendarHolidays (idxMin (bdate_range s e))
          (idxMax (bdate_range s e))).contains d))) := hpb.filter _
    have hndL := hpL.imp Nat.ne_of_lt
    rw [uniqueFirst_eq_self _ hndL]
    refine ⟨hpL, hndL, ?_⟩
    intro d hd _
    have hdb : d ∈ bdate_range s e := (List.mem_filter.mp hd).1
    have hbd : isBusinessDay d = true := (List.mem_filter.mp hdb).2
    refine ⟨hbd, ?_⟩
    cases hc2 : isConfiguredHoliday d with
    | false => rfl
    | true =>
      exfalso
      have hple : List.Pairwise (· ≤ ·) (bdate_range s e) := hpb.imp Nat.le_of_lt
      have hlo : idxMin (bdate_range s e) ≤ d := sorted_headD_le _ hple d hdb
      have hhi : d ≤ idxMax (bdate_range s e) := sorted_le_getLastD _ 0 hple d hdb
      unfold isConfiguredHoliday at hc2
      rw [Bool.or_eq_true] at hc2
      have hmem : d ∈ calendarHolidays (idxMin (bdate_range s e))
          (idxMax (bdate_range s e)) := by
        rcases hc2 with hcf | hcf
        · exact mem_calendarHolidays _ _ d (yearOf d) hlo hhi (List.elem_iff.mp hcf)
            (by have := yearOf_mono hlo; omega) (by have := yearOf_mono hhi; omega)
        · exact mem_calendarHolidays _ _ d (yearOf d + 1) hlo hhi (List.elem_iff.mp hcf)
            (by have := yearOf_mono hlo; omega) (by have := yearOf_mono hhi; omega)
      have hnc := (List.mem_filter.mp hd).2
      have hcontains : (calendarHolidays (idxMin (bdate_range s e))
          (idxMax (bdate_range s e))).contains d = true := List.elem_iff.mpr hmem
      rw [hcontains] at hnc
      cases hnc

set_option maxRecDepth 10000 in
/-- Witness for businessDates_spec on the first week of 2020. -/
theorem businessDates_spec_witness :
    List.Pairwise (· < ·) (_date_list_generator (toSerial 2020 1 1) (toSerial 2020 1 7) false false) ∧
    (_date_list_generator (toSerial 2020 1 1) (toSerial 2020 1 7) false false).Nodup ∧
    (∀ d ∈ _date_list_generator (toSerial 2020 1 1) (toSerial 2020 1 7) false false,
      false = false → isBusinessDay d = true ∧ isConfiguredHoliday d = false) :=
  businessDates_spec (toSerial 2020 1 1) (toSerial 2020 1 7) false false (by decide)

set_option maxRecDepth 10000 in
/-- C6 failing input, evaluated: with weekends included and holidays
"excluded" (holidays = false), the output for the single day
2020-01-01 — a Wednesday and the configured New Year's Day holiday —
still contains that holiday, because the holidays parameter is never
read; this contradicts the function's own docstring for the holidays
parameter, so the claim is right and the code is wrong. -/
theorem businessDates_holiday_counterexample :
    _date_list_generator (toSerial 2020 1 1) (toSerial 2020 1 1) true false =
      [toSerial 2020 1 1] ∧
    isConfiguredHoliday (toSerial 2020 1 1) = true ∧
    weekday (toSerial 2020 1 1) = 3 :=
  ⟨by decide, by decide, by decide⟩

/-- C10: the holidays parameter of `_date_list_generator` has no effect
on the result: the parameter is shadowed by the calendar query before
any use in the weekends-excluded branch and never read in the other
branch. -/
theorem dateListGenerator_holidays_param_unused (s e : Nat) (w h1 h2 : Bool) :
    _date_list_generator s e w h1 = _date_list_generator s e w h2 := rfl

/-! ## Claim theorems for the index locator, fetcher and cleaner -/


set_option maxRecDepth 10000 in
/-- C7: the index-URL construction is a pure function of the date,
following the template daily-index/{year}/QTR{quarter}/company.{YYYYMMDD}.idx
with quarter = ((month-1)//3)+1; equal dates give equal URLs and the
quarter boundaries are exact (month 3 is QTR1, month 4 is QTR2, also at
the concrete boundary dates 2020-03-31 / 2020-04-01). -/
theorem indexURL_spec :
    (∀ rd : Nat, indexURL rd =
      "https://www.sec.gov/Archives/edgar/daily-index/" ++ padZeros 4 (yearOf rd) ++
      "/QTR" ++ toString ((monthOf rd - 1) / 3 + 1) ++
      "/company." ++ padZeros 4 (yearOf rd) ++ padZeros 2 (monthOf rd) ++
      padZeros 2 (dayOf rd) ++ ".idx") ∧
    (∀ rd1 rd2 : Nat, rd1 = rd2 → indexURL rd1 = indexURL rd2) ∧
    quarterOfMonth 3 = 1 ∧ quarterOfMonth 4 = 2 ∧
    strContains (indexURL (toSerial 2020 3 31)) "/QTR1/" = true ∧
    strContains (indexURL (toSerial 2020 4 1)) "/QTR2/" = true ∧
    indexURL (toSerial 2020 1 2) =
      "https://www.sec.gov/Archives/edgar/daily-index/2020/QTR1/company.20200102.idx" :=
  ⟨fun _ => rfl, fun _ _ h => congrArg _ h, rfl, rfl, by decide, by decide, by decide⟩

/-- Witness for indexURL_spec: determinism applied at a concrete
date. -/
theorem indexURL_spec_witness :
    indexURL (toSerial 2020 3 31) = indexURL (toSerial 2020 3 31) :=
  indexURL_spec.2.1 (toSerial 2020 3 31) (toSerial 2020 3 31) rfl

/-- Every pair produced by the bulk fetcher carries a URL from the
input batch together with exactly the text its own fetch produced. -/
theorem download_thread_sound : ∀ (R : String → List (Option String)) (urls : List String)
    (p : String × String), p ∈ _download_thread R urls →
    p.2 ∈ urls ∧ _download_one_threaded (R p.2) = some p.1
  | R, [], p, hp => absurd hp (by simp [_download_thread])
  | R, u :: us, p, hp => by
    unfold _download_thread at hp
    rw [List.map_cons, List.zip_cons_cons, List.filterMap_cons] at hp
    rcases hfu : _download_one_threaded (R u) with _ | t
    · rw [hfu] at hp
      have h2 := download_thread_sound R us p (by unfold _download_thread; exact hp)
      exact ⟨List.mem_cons_of_mem u h2.1, h2.2⟩
    · rw [hfu] at hp
      rcases List.mem_cons.mp hp with rfl | htail
      · exact ⟨List.mem_cons_self _ _, by rw [hfu]⟩
      · have h2 := download_thread_sound R us p (by unfold _download_thread; exact htail)
        exact ⟨List.mem_cons_of_mem u h2.1, h2.2⟩

/-- C8: a per-URL fetch whose first attempt raises a transport error
yields nothing; a fetch whose settling response body carries the
access-denied marker (and not the rate-limit marker, which would
retry) yields nothing; `_download_thread` drops every URL whose fetch
yielded nothing from its output; and every surviving pair holds
exactly the text fetched for its own URL. -/
theorem fetch_failure_handling (R : String → List (Option String)) (urls : List String)
    (t url : String) (rest : List (Option String)) :
    (_download_one_threaded (none :: rest) = none) ∧
    (strContains t "AccessDenied" = true →
      strContains t "Request Rate Threshold Exceeded" = false →
      _download_one_threaded (some t :: rest) = none) ∧
    (url ∈ urls → _download_one_threaded (R url) = none →
      ∀ p ∈ _download_thread R urls, p.2 ≠ url) ∧
    (∀ p ∈ _download_thread R urls, _download_one_threaded (R p.2) = some p.1) := by
  refine ⟨rfl, ?_, ?_, fun p hp => (download_thread_sound R urls p hp).2⟩
  · intro hd hr
    simp [_download_one_threaded, hd, hr]
  · intro _ hnone p hp heq
    have h2 := (download_thread_sound R urls p hp).2
    rw [heq, hnone] at h2
    cases h2

/-- Witness for fetch_failure_handling on a concrete three-URL batch
with one transport error and one access-denied response. -/
theorem fetch_failure_handling_witness :
    _download_one_threaded (R8 "bad") = none ∧
    (∀ p ∈ _download_thread R8 urls8, p.2 ≠ "bad") ∧
    (∀ p ∈ _download_thread R8 urls8, p.2 ≠ "denied") ∧
    _download_thread R8 urls8 = [("ok:a", "a")] := by
  refine ⟨rfl, ?_, ?_, by decide⟩
  · exact (fetch_failure_handling R8 urls8 "t" "bad" []).2.2.1 (by decide) rfl
  · exact (fetch_failure_handling R8 urls8 "t" "denied" []).2.2.1 (by decide) rfl

/-- C9: the cleaning step maps, elementwise in the Director and
Officer columns only, the value 0 to false and 1 to true, leaving
every other value (such as true/false themselves) unchanged, and does
not modify any of the fifteen other columns. -/
theorem clean_download_spec (df : Datadict) (s : String) :
    (_clean_download df).director = df.director.map repl01 ∧
    (_clean_download df).officer = df.officer.map repl01 ∧
    repl01 "0" = "false" ∧
    repl01 "1" = "true" ∧
    (s ≠ "0" → s ≠ "1" → repl01 s = s) ∧
    (_clean_download df).url = df.url ∧
    (_clean_download df).date = df.date ∧
    (_clean_download df).issuerCik = df.issuerCik ∧
    (_clean_download df).issuerName = df.issuerName ∧
    (_clean_download df).issuerTicker = df.issuerTicker ∧
    (_clean_download df).ownerCik = df.ownerCik ∧
    (_clean_download df).ownerName = df.ownerName ∧
    (_clean_download df).tenPctOwner = df.tenPctOwner ∧
    (_clean_download df).officerTitle = df.officerTitle ∧
    (_clean_download df).transactionDate = df.transactionDate ∧
    (_clean_download df).transactionCode = df.transactionCode ∧
    (_clean_download df).numberOfShares = df.numberOfShares ∧
    (_clean_download df).pricePerShare = df.pricePerShare ∧
    (_clean_download df).sharesOwnedFollowingTrans = df.sharesOwnedFollowingTrans ∧
    (_clean_download df).ownershipNature = df.ownershipNature := by
  refine ⟨rfl, rfl, rfl, rfl, ?_, rfl, rfl, rfl, rfl, rfl, rfl, rfl, rfl, rfl, rfl, rfl,
    rfl, rfl, rfl, rfl⟩
  intro h0 h1
  unfold repl01
  rw [if_neg h0, if_neg h1]

/-- Witness for clean_download_spec on a concrete table (note the
mixed 1/0/true column mapped to true/false/true). -/
theorem clean_download_spec_witness :
    (_clean_download df9).director = df9.director.map repl01 ∧
    repl01 "S" = "S" ∧
    (_clean_download df9).transactionCode = df9.transactionCode ∧
    (_clean_download df9).director = ["true", "false", "true"] := by
  obtain ⟨a1, a2, a3, a4, a5, a6, a7, a8, a9, a10, a11, a12, a13, a14, a15, a16, a17, a18,
    a19, a20⟩ := clean_download_spec df9 "S"
  exact ⟨a1, a5 (by decide) (by decide), a16, by decide⟩

/-! ## Claim theorems for the orchestrator -/


/-- C1 (amended): for a truthy non-string form argument, `download`
raises the TypeError after the index fetch batch but before any
filing-document fetch: whenever the index batch returns at least one
result, the event trace is exactly one fetch batch (the index URLs)
followed by the TypeError, and the run aborts with that error — no
second fetch batch is ever issued. -/
theorem download_typeerror_after_index_fetch
    (R : String → List (Option String)) (s e : Nat) (form : PyVal)
    (h1 : truthy form = true) (h2 : isStr form = false)
    (h3 : _download_thread R ((_date_list_generator s e false false).map indexURL) ≠ []) :
    download R s e form =
      ([DlEvent.fetchBatch ((_date_list_generator s e false false).map indexURL),
        DlEvent.typeError], Except.error PyError.typeErr) := by
  rcases hres : _download_thread R ((_date_list_generator s e false false).map indexURL)
    with _ | ⟨p, ps⟩
  · exact absurd hres h3
  · simp only [download]
    rw [hres]
    simp only [List.map_cons, _append_dataframes_rows, h1, h2, Bool.not_false, Bool.and_self,
      if_true, List.singleton_append]

set_option maxRecDepth 100000 in
/-- Counterexample to C1 as stated: `download(form=123)` on the single
business day 2020-01-02 issues the index URL fetch first and only then
raises the TypeError — the type error does not precede all network
requests. -/
theorem download_fetch_precedes_typeerror :
    download R0 (toSerial 2020 1 2) (toSerial 2020 1 2) (PyVal.pint 123) =
      ([DlEvent.fetchBatch
          ["https://www.sec.gov/Archives/edgar/daily-index/2020/QTR1/company.20200102.idx"],
        DlEvent.typeError],
       Except.error PyError.typeErr) := rfl

set_option maxRecDepth 100000 in
/-- Witness for download_typeerror_after_index_fetch on a concrete
environment, two-day range and a truthy non-string form value. -/
theorem download_typeerror_after_index_fetch_witness :
    download R0 (toSerial 2020 1 2) (toSerial 2020 1 3) (PyVal.pbool true) =
      ([DlEvent.fetchBatch
          ((_date_list_generator (toSerial 2020 1 2) (toSerial 2020 1 3) false false).map
            indexURL),
        DlEvent.typeError], Except.error PyError.typeErr) :=
  download_typeerror_after_index_fetch R0 _ _ _ rfl rfl (by decide)
